import Mathlib

/-!
Verification of the oVirt dynamic inventory script (`ovirt4.py`).

The script fetches data centers, clusters, hosts and virtual machines from an
oVirt 4 engine, projects them into plain dictionaries, groups host and VM
names into Ansible inventory groups, and prints the result as JSON.

This file is a shallow embedding of the script's pure data-shaping logic:

* `to_safe` — the group/attribute-name sanitizer (regex substitution);
* `read_settings` — the settings structure built from the INI configuration;
* `build_inventory` — the grouping pass over projected hosts and VMs,
  including the per-entity `_meta.hostvars` entries;
* `runMain` — the control flow of `Ovirt4Inventory.__init__` (connect,
  build, select output, disconnect, print), with the event trace made
  explicit and Python exceptions modelled as `Except`;
* the affinity-group list comprehension of `get_vms`, with Python attribute
  access modelled so that its dynamic failure modes are visible.

The remote API, the INI parser and the JSON serializer are external
collaborators: entities arrive here already retrieved, and serialization is
modelled by the arguments handed to the JSON library (`Rendered`).
-/

namespace Ovirt

/-- The Python exceptions the embedded fragments can raise. -/
inductive PyErr where
  | keyError
  | attributeError
  | indexError
  | nameError
  deriving DecidableEq

/-! ## Name sanitization (`to_safe`, source lines 274-280)

The source builds the pattern `[^A-Za-z0-9\_]` — widened with `\-` when
`replace_dash_in_groups` is false — substitutes `_` for every match, and then
deletes one leading underscore via `re.sub(r"^\_", "", ...)`. -/

/-- Membership in the bracket class of the substitution regex:
`A-Z`, `a-z`, `0-9`, `_`, and also `-` when `replace_dash_in_groups`
is false (code points 65-90, 97-122, 48-57). -/
def inRegexClass (replaceDash : Bool) (c : Char) : Bool :=
  (65 ≤ c.toNat && c.toNat ≤ 90) ||
  (97 ≤ c.toNat && c.toNat ≤ 122) ||
  (48 ≤ c.toNat && c.toNat ≤ 57) ||
  c == '_' ||
  (!replaceDash && c == '-')

/-- The inner substitution: every character outside the bracket class
becomes an underscore (the pattern is a single-character negated class, so
the substitution is character-by-character). -/
def reSubBad (replaceDash : Bool) (w : List Char) : List Char :=
  w.map (fun c => if inRegexClass replaceDash c then c else '_')

/-- The outer substitution `re.sub(r"^\_", "", w)`: the anchor matches only
at position 0, so at most one leading underscore is removed. -/
def reSubLeadingUnderscore : List Char → List Char
  | [] => []
  | c :: rest => if c = '_' then rest else c :: rest

/-- `Ovirt4Inventory.to_safe` with the `replace_dash_in_groups` setting
already looked up (the lookup itself is `to_safe_run` below). -/
def to_safe (replaceDash : Bool) (w : List Char) : List Char :=
  reSubLeadingUnderscore (reSubBad replaceDash w)

/-! Spec-side restatement of the sanitizer, for the refinement claim C4.
These definitions follow the spec's words, not the source. -/

/-- Modelled from the spec: the preserved character class `[A-Za-z0-9_-]`,
with `-` preserved only when `replace_dash_in_groups` is false. -/
def specPreserved (replaceDash : Bool) (c : Char) : Bool :=
  (65 ≤ c.toNat && c.toNat ≤ 90) ||
  (97 ≤ c.toNat && c.toNat ≤ 122) ||
  (48 ≤ c.toNat && c.toNat ≤ 57) ||
  c == '_' ||
  (!replaceDash && c == '-')

/-- Modelled from the spec: preserved characters are kept, every other
character is replaced with an underscore. -/
def specReplace (replaceDash : Bool) : List Char → List Char
  | [] => []
  | c :: cs => (if specPreserved replaceDash c then c else '_') :: specReplace replaceDash cs

/-- Modelled from the spec: a single leading underscore is stripped. -/
def specStripOne (w : List Char) : List Char :=
  if w.head? = some '_' then w.tail else w

/-- Modelled from the spec: the sanitizer as §4.5 describes it. -/
def sanitize_spec (replaceDash : Bool) (w : List Char) : List Char :=
  specStripOne (specReplace replaceDash w)

theorem inRegexClass_eq_specPreserved (replaceDash : Bool) (c : Char) :
    inRegexClass replaceDash c = specPreserved replaceDash c := rfl

theorem reSubBad_eq_specReplace (replaceDash : Bool) (w : List Char) :
    reSubBad replaceDash w = specReplace replaceDash w := by
  induction w with
  | nil => rfl
  | cons c cs ih =>
    simp only [reSubBad, List.map_cons, specReplace, inRegexClass_eq_specPreserved]
    exact congrArg _ (by simpa [reSubBad] using ih)

theorem reSubLeadingUnderscore_eq_specStripOne (w : List Char) :
    reSubLeadingUnderscore w = specStripOne w := by
  cases w with
  | nil => rfl
  | cons c rest =>
    by_cases hc : c = '_' <;>
      simp [reSubLeadingUnderscore, specStripOne, hc]

/-- C4: the sanitizer preserves the characters of the class `[A-Za-z0-9_-]`
(minus `-` when `replace_dash_in_groups` is true), replaces every other
character with an underscore, and strips a single leading underscore:
`to_safe` coincides with the sanitizer the spec describes, for every string
and either setting. -/
theorem to_safe_eq_sanitize_spec (replaceDash : Bool) (w : List Char) :
    to_safe replaceDash w = sanitize_spec replaceDash w := by
  simp only [to_safe, sanitize_spec, reSubBad_eq_specReplace,
    reSubLeadingUnderscore_eq_specStripOne]

/-! ## Idempotence of the sanitizer (claim C3) -/

/-- Every character the inner substitution emits is in the bracket class
(underscore itself is in the class under either setting). -/
theorem inRegexClass_of_mem_reSubBad (replaceDash : Bool) (w : List Char) :
    ∀ c ∈ reSubBad replaceDash w, inRegexClass replaceDash c = true := by
  intro c hc
  rcases List.mem_map.mp hc with ⟨a, _, ha⟩
  by_cases h : inRegexClass replaceDash a = true
  · rw [← ha, if_pos h]
    exact h
  · rw [← ha, if_neg h]
    cases replaceDash <;> decide

/-- Substituting over a word whose characters are all in the class is the
identity. -/
theorem reSubBad_of_all_inClass (replaceDash : Bool) (w : List Char)
    (h : ∀ c ∈ w, inRegexClass replaceDash c = true) :
    reSubBad replaceDash w = w := by
  induction w with
  | nil => rfl
  | cons c cs ih =>
    have hc := h c (by simp)
    have hcs : ∀ x ∈ cs, inRegexClass replaceDash x = true := by
      intro x hx; exact h x (by simp [hx])
    simp [reSubBad, hc] at ih ⊢
    exact ih hcs

/-- The leading-underscore strip yields a suffix, so membership carries over. -/
theorem mem_of_mem_reSubLeadingUnderscore (w : List Char) :
    ∀ c ∈ reSubLeadingUnderscore w, c ∈ w := by
  intro c hc
  cases w with
  | nil => exact hc
  | cons a rest =>
    simp only [reSubLeadingUnderscore] at hc
    by_cases ha : a = '_'
    · rw [if_pos ha] at hc
      exact List.mem_cons_of_mem a hc
    · rwa [if_neg ha] at hc

/-- C3 counterexample: the claim fails as stated — sanitizing a word that
sanitizes to a string with a leading underscore a second time strips another
underscore, so `to_safe` is not idempotent at the word consisting of two
underscores and a letter. -/
theorem to_safe_not_idempotent :
    to_safe false (to_safe false ['_', '_', 'a']) ≠ to_safe false ['_', '_', 'a'] := by
  decide

/-- C3 amended: applying the sanitizer twice yields the same result as
applying it once for every word whose once-sanitized form does not begin
with an underscore (each application strips one more leading underscore, so
only that case can differ). -/
theorem to_safe_idempotent_of_head_ne_underscore (replaceDash : Bool) (w : List Char)
    (h : (to_safe replaceDash w).head? ≠ some '_') :
    to_safe replaceDash (to_safe replaceDash w) = to_safe replaceDash w := by
  have hall : ∀ c ∈ to_safe replaceDash w, inRegexClass replaceDash c = true := by
    intro c hc
    exact inRegexClass_of_mem_reSubBad replaceDash w c
      (mem_of_mem_reSubLeadingUnderscore _ c hc)
  unfold to_safe at *
  rw [reSubBad_of_all_inClass replaceDash _ hall]
  cases hw : reSubLeadingUnderscore (reSubBad replaceDash w) with
  | nil => rfl
  | cons c rest =>
    have hc : c ≠ '_' := by
      intro hc
      apply h
      rw [hw, hc]
      rfl
    simp [reSubLeadingUnderscore, hc]

/-- C3 amended, witness: a concrete word whose sanitized form has no leading
underscore, on which double sanitization equals single sanitization. -/
theorem to_safe_idempotent_witness :
    to_safe false (to_safe false ['a', '-', 'b']) = to_safe false ['a', '-', 'b'] :=
  to_safe_idempotent_of_head_ne_underscore false ['a', '-', 'b'] (by decide)

/-! ## Settings (`read_settings`, source lines 91-125) -/

/-- The `format` section's single setting. -/
structure FormatSettings where
  replace_dash_in_groups : Bool
  deriving DecidableEq

/-- The `ovirt` section's settings; each value is the config's or, failing
that, the environment variable's, and `None` when both are absent. -/
structure OvirtSettings where
  url : Option String
  username : Option String
  password : Option String
  ca_file : Option String
  deriving DecidableEq

/-- The dictionary `read_settings` returns: the `format` key exists only
when the config file has a `format` section. -/
structure Settings where
  ovirt : OvirtSettings
  format : Option FormatSettings
  deriving DecidableEq

/-- The configuration as the INI parser exposes it to `read_settings`: the
`ovirt` values (after the environment-variable defaults are merged in) and
the optional `format` section with its boolean. -/
structure IniConfig where
  ovirt_url : Option String
  ovirt_username : Option String
  ovirt_password : Option String
  ovirt_ca_file : Option String
  has_format_section : Bool
  replace_dash_in_groups : Bool
  deriving DecidableEq

/-- `read_settings`: copies the `ovirt` values and, only when the config has
a `format` section, adds the `format` key. -/
def read_settings (c : IniConfig) : Settings :=
  { ovirt :=
      { url := c.ovirt_url, username := c.ovirt_username,
        password := c.ovirt_password, ca_file := c.ovirt_ca_file },
    format :=
      if c.has_format_section then
        some { replace_dash_in_groups := c.replace_dash_in_groups }
      else
        none }

/-- `to_safe` as invoked at runtime: it reads
`self.settings['format']['replace_dash_in_groups']`, so a missing `format`
key raises `KeyError` before any substitution happens. -/
def to_safe_run (s : Settings) (w : List Char) : Except PyErr (List Char) :=
  match s.format with
  | none => Except.error PyErr.keyError
  | some f => Except.ok (to_safe f.replace_dash_in_groups w)

/-! ## Python dictionaries as insertion-ordered association lists -/

/-- Dictionary lookup `d[k]` (as an `Option`; `none` is Python's `KeyError`). -/
def dictGet (d : List (String × α)) (k : String) : Option α :=
  match d with
  | [] => none
  | (k2, v) :: rest => if k2 = k then some v else dictGet rest k

/-- Dictionary assignment `d[k] = v`: replaces the binding in place when the
key exists, appends otherwise (last write wins). -/
def dictSet (d : List (String × α)) (k : String) (v : α) : List (String × α) :=
  match d with
  | [] => [(k, v)]
  | (k2, v2) :: rest => if k2 = k then (k, v) :: rest else (k2, v2) :: dictSet rest k v

theorem dictGet_dictSet_self (d : List (String × α)) (k : String) (v : α) :
    dictGet (dictSet d k v) k = some v := by
  induction d with
  | nil => simp [dictGet, dictSet]
  | cons p rest ih =>
    by_cases h : p.1 = k <;> simp [dictGet, dictSet, h, ih]

theorem mem_dictSet (d : List (String × α)) (k : String) (v : α) :
    ∀ p ∈ dictSet d k v, p ∈ d ∨ p = (k, v) := by
  induction d with
  | nil => simp [dictSet]
  | cons q rest ih =>
    intro p hp
    by_cases h : q.1 = k
    · rw [dictSet, if_pos h] at hp
      rcases List.mem_cons.mp hp with h1 | h1
      · exact Or.inr h1
      · exact Or.inl (List.mem_cons_of_mem q h1)
    · rw [dictSet, if_neg h] at hp
      rcases List.mem_cons.mp hp with h1 | h1
      · exact Or.inl (h1 ▸ List.mem_cons_self q rest)
      · rcases ih p h1 with h2 | h2
        · exact Or.inl (List.mem_cons_of_mem q h2)
        · exact Or.inr h2

/-! ## Projected entities

`get_dict_from_object` keeps only scalar attributes (ints, bools, stripped
strings, explicit `None`); nested objects and lists are dropped and re-added
explicitly by `get_hosts` / `get_vms` / `get_clusters`.  The structures
below are those per-entity dictionaries with the fields the grouping pass
reads; `Option String` stands for a value that may be Python `None`. -/

/-- The projected data center (`get_data_centers`): only its name matters
to the grouping pass. -/
structure ProjDataCenter where
  name : String
  deriving DecidableEq

/-- The projected cluster (`get_clusters`): its name plus the embedded
resolved data center. -/
structure ProjCluster where
  name : String
  data_center : ProjDataCenter
  deriving DecidableEq

/-- The projected host dictionary (`get_hosts`): the fields
`build_inventory` reads. -/
structure HostVal where
  id : Option String
  name : String
  address : Option String
  cluster : ProjCluster
  tags : List String
  deriving DecidableEq

/-- One entry of a VM's `nics` dictionary (`get_vms`): each key is present
only when the reported device carried the datum. -/
structure Nic where
  mac_address : Option String
  ip_addresses : Option (List String)
  deriving DecidableEq

/-- The projected VM dictionary (`get_vms`): the fields `build_inventory`
reads.  `host` is `vm.host.name if vm.host else None`. -/
structure VmVal where
  name : String
  host : Option String
  tags : List String
  nics : List (String × Nic)
  cluster : ProjCluster
  deriving DecidableEq

/-- A reported device as `get_vms` consumes it: name, optional MAC, and the
(possibly empty) list of IP addresses (`device.ips` that is `None` behaves
like the empty list: both are falsy). -/
structure ReportedDevice where
  name : String
  mac : Option String
  ips : List String
  deriving DecidableEq

/-- The nic dictionary built for one reported device: `mac_address` when the
device has a MAC, `ip_addresses` only when `device.ips` is truthy — a device
reporting a MAC but no IPs yields a nic without the `ip_addresses` key. -/
def deviceToNic (d : ReportedDevice) : Nic :=
  { mac_address := d.mac,
    ip_addresses := if d.ips.isEmpty then none else some d.ips }

/-- The `nics` dictionary of one VM: one entry per reported device, keyed by
device name (a repeated name overwrites). -/
def get_vm_nics (devs : List ReportedDevice) : List (String × Nic) :=
  devs.foldl (fun acc d => dictSet acc d.name (deviceToNic d)) []

/-! ## `_meta.hostvars` entries and the inventory -/

/-- One `_meta.hostvars` entry: the full projected dictionary under `ovirt`
plus the optional `ansible_host` key.  For a host the hint's value is
`value['address']` (which may be Python `None`); for a VM it is the first IP
of the first nic. -/
inductive Entry where
  | hostEntry (ovirt : HostVal) (ansible_host : Option (Option String))
  | vmEntry (ovirt : VmVal) (ansible_host : Option String)
  deriving DecidableEq

/-- The inventory under construction: `_meta.hostvars` plus the group map
(the static `all.children` list never changes and is omitted). -/
structure Inventory where
  hostvars : List (String × Entry)
  groups : List (String × List String)
  deriving DecidableEq

def gHosts : String := "ovirt_hosts"

def gVms : String := "ovirt_vms"

/-- The group names built with `%` formatting in `build_inventory`: the raw
fragment is appended to the literal without further processing. -/
def groupDataCenter (n : String) : String := "ovirt_data_center_" ++ n

def groupCluster (n : String) : String := "ovirt_cluster_" ++ n

def groupTag (n : String) : String := "ovirt_tag_" ++ n

def groupHost (n : String) : String := "ovirt_host_" ++ n

/-- The dictionary `build_inventory` starts from: empty hostvars and the two
fixed top-level groups. -/
def emptyInventory : Inventory :=
  { hostvars := [], groups := [(gHosts, []), (gVms, [])] }

/-- `add_host_to_group`: creates the group with an empty host list when it
is absent, then appends the name. -/
def add_host_to_group (host group : String) (groups : List (String × List String)) :
    List (String × List String) :=
  match dictGet groups group with
  | some hs => dictSet groups group (hs ++ [host])
  | none => groups ++ [(group, [host])]

/-! ## `build_inventory` (source lines 241-272) -/

/-- One iteration of the host loop: the hostvars entry (with `ansible_host`
exactly when `value['address'] == value['id']` is false), then membership in
`ovirt_hosts` and the raw-named data-center and cluster groups. -/
def processHost (inv : Inventory) (v : HostVal) : Inventory :=
  let ah : Option (Option String) := if v.address = v.id then none else some v.address
  let inv1 : Inventory :=
    { inv with hostvars := dictSet inv.hostvars v.name (Entry.hostEntry v ah) }
  let inv2 : Inventory := { inv1 with groups := add_host_to_group v.name gHosts inv1.groups }
  let inv3 : Inventory :=
    { inv2 with
      groups := add_host_to_group v.name (groupDataCenter v.cluster.data_center.name) inv2.groups }
  { inv3 with groups := add_host_to_group v.name (groupCluster v.cluster.name) inv3.groups }

/-- A Python list comprehension over `Except`: elements are evaluated left
to right and the first raised exception aborts the whole expression. -/
def mapExcept (f : α → Except PyErr β) : List α → Except PyErr (List β)
  | [] => Except.ok []
  | a :: l =>
    match f a with
    | Except.error e => Except.error e
    | Except.ok b =>
      match mapExcept f l with
      | Except.error e => Except.error e
      | Except.ok bs => Except.ok (b :: bs)

/-- `nic['ip_addresses'][0]`: `KeyError` when the nic has no `ip_addresses`
key, `IndexError` when the list is empty. -/
def nicFirstIp (n : Nic) : Except PyErr String :=
  match n.ip_addresses with
  | none => Except.error PyErr.keyError
  | some [] => Except.error PyErr.indexError
  | some (ip :: _) => Except.ok ip

/-- The VM connection hint: guarded by `if value['nics']:`, then
`[nic['ip_addresses'][0] for nic in value['nics'].values()][0]` — the
comprehension evaluates every nic before the final indexing. -/
def vmAnsibleHost (nics : List (String × Nic)) : Except PyErr (Option String) :=
  match nics with
  | [] => Except.ok none
  | _ :: _ =>
    match mapExcept nicFirstIp (nics.map Prod.snd) with
    | Except.error e => Except.error e
    | Except.ok [] => Except.error PyErr.indexError
    | Except.ok (ip :: _) => Except.ok (some ip)

/-- The part of one VM-loop iteration that runs after the `ansible_host`
value is known: the hostvars entry, membership in `ovirt_vms`, the
raw-named data-center and cluster groups, one tag group per tag, and — when
`value['host']` is truthy — the managing-host group. -/
def processVmOk (inv : Inventory) (v : VmVal) (ah : Option String) : Inventory :=
  let inv1 : Inventory :=
    { inv with hostvars := dictSet inv.hostvars v.name (Entry.vmEntry v ah) }
  let inv2 : Inventory := { inv1 with groups := add_host_to_group v.name gVms inv1.groups }
  let inv3 : Inventory :=
    { inv2 with
      groups := add_host_to_group v.name (groupDataCenter v.cluster.data_center.name) inv2.groups }
  let inv4 : Inventory :=
    { inv3 with groups := add_host_to_group v.name (groupCluster v.cluster.name) inv3.groups }
  let inv5 : Inventory :=
    { inv4 with
      groups := v.tags.foldl (fun g t => add_host_to_group v.name (groupTag t) g) inv4.groups }
  match v.host with
  | some hn =>
    if hn.isEmpty then inv5
    else { inv5 with groups := add_host_to_group v.name (groupHost hn) inv5.groups }
  | none => inv5

/-- One iteration of the VM loop: the `ansible_host` computation can raise,
which aborts the run before the entry is stored. -/
def processVm (inv : Inventory) (v : VmVal) : Except PyErr Inventory :=
  match vmAnsibleHost v.nics with
  | Except.error e => Except.error e
  | Except.ok ah => Except.ok (processVmOk inv v ah)

/-- The VM loop of `build_inventory`: processes the VMs in order, stopping
at the first exception. -/
def buildVms (vms : List VmVal) (inv : Inventory) : Except PyErr Inventory :=
  match vms with
  | [] => Except.ok inv
  | v :: rest =>
    match processVm inv v with
    | Except.error e => Except.error e
    | Except.ok inv2 => buildVms rest inv2

/-- `build_inventory` over the already-retrieved host and VM dictionaries:
the host loop first, then the VM loop; an exception in the VM loop aborts
the run. -/
def build_inventory (hosts : List HostVal) (vms : List VmVal) : Except PyErr Inventory :=
  buildVms vms (hosts.foldl processHost emptyInventory)

/-! ## Output selection (`__init__` and `json_format_dict`, lines 80-89 and 282-288) -/

/-- The arguments handed to the JSON library: the data plus the `sort_keys`
and `indent` choices (the library itself is an external collaborator). -/
structure Rendered (α : Type) where
  data : α
  sort_keys : Bool
  indent : Option Nat
  deriving DecidableEq

/-- `json_format_dict(data, pretty)`: sorted keys and two-space indentation
when `pretty` is true, compact output otherwise. -/
def json_format_dict (data : α) (pretty : Bool) : Rendered α :=
  if pretty then { data := data, sort_keys := true, indent := some 2 }
  else { data := data, sort_keys := false, indent := none }

/-- The parsed command-line arguments: `--list` (store-true, default true),
`--host NAME` (default `None`), `--pretty` (store-true, default false). -/
structure Args where
  list : Bool
  host : Option String
  pretty : Bool
  deriving DecidableEq

/-- What `__init__` prints: the whole inventory (`--list`) or one hostvars
entry (`--host`). -/
inductive PrintData where
  | full (inv : Inventory)
  | single (e : Entry)
  deriving DecidableEq

/-- The `elif self.args.list:` branch; were `--list` false as well,
`data_to_print` would be unbound at the `print` call (`NameError`).  Both
call sites of `json_format_dict` pass the literal `True`, not
`self.args.pretty`. -/
def listOut (args : Args) (inv : Inventory) : Except PyErr (Rendered PrintData) :=
  if args.list then Except.ok (json_format_dict (PrintData.full inv) true)
  else Except.error PyErr.nameError

/-- The `data_to_print` selection of `__init__`: a truthy `--host` value
selects `self.inventory['_meta']['hostvars'][self.args.host]` (a `KeyError`
for an absent name), otherwise the `--list` branch runs. -/
def selectOutput (args : Args) (inv : Inventory) : Except PyErr (Rendered PrintData) :=
  match args.host with
  | some h =>
    if h.isEmpty then listOut args inv
    else
      match dictGet inv.hostvars h with
      | some e => Except.ok (json_format_dict (PrintData.single e) true)
      | none => Except.error PyErr.keyError
  | none => listOut args inv

/-- The externally visible steps of one run. -/
inductive Event where
  | evConnect
  | evBuild
  | evDisconnect
  | evPrint
  deriving DecidableEq

/-- The control flow of `Ovirt4Inventory.__init__` after the settings are
read: connect, build the inventory, select the data to print, disconnect,
print.  There is no `try`/`finally`: an exception stops the sequence where
it occurred, so everything after it — `self.disconnect()` included — is
skipped.  The trace records the steps that executed. -/
def runMain (args : Args) (hosts : List HostVal) (vms : List VmVal) :
    List Event × Except PyErr (Rendered PrintData) :=
  match build_inventory hosts vms with
  | Except.error e => ([Event.evConnect], Except.error e)
  | Except.ok inv =>
    match selectOutput args inv with
    | Except.error e => ([Event.evConnect, Event.evBuild], Except.error e)
    | Except.ok d =>
      ([Event.evConnect, Event.evBuild, Event.evDisconnect, Event.evPrint], Except.ok d)

/-- Whether an `Except` computation succeeded. -/
def isOkE : Except PyErr α → Bool
  | Except.ok _ => true
  | Except.error _ => false

/-! ## The affinity-group comprehension (`get_vms`, lines 229-232, and
`get_affinity_groups`, lines 191-195) -/

/-- An affinity group as the SDK returns it: id, name, and the names of its
member VMs (`group.vms`, each member carrying a `name`). -/
structure AffinityGroupObj where
  id : String
  name : String
  vms : List String
  deriving DecidableEq

/-- The dictionary `get_dict_from_object` keeps of an affinity group: only
scalar attributes survive, so the member list is dropped. -/
structure ProjAffinityGroup where
  id : String
  name : String
  deriving DecidableEq

/-- `get_affinity_groups`: a dictionary keyed by group id whose values are
the projected groups. -/
def get_affinity_groups (gs : List AffinityGroupObj) : List (String × ProjAffinityGroup) :=
  gs.map (fun g => (g.id, { id := g.id, name := g.name }))

/-- A Python value as the affinity-group comprehension sees its loop
variable: iterating the dictionary returned by `get_affinity_groups` yields
its keys, which are id strings — yet the loop body treats them as SDK group
objects. -/
inductive PyV where
  | pyStr (s : String)
  | pyGroup (g : AffinityGroupObj)
  deriving DecidableEq

/-- Python attribute access `x.vms` (as member names): a string has no such
attribute, so it raises `AttributeError`. -/
def getattrVms : PyV → Except PyErr (List String)
  | PyV.pyStr _ => Except.error PyErr.attributeError
  | PyV.pyGroup g => Except.ok g.vms

/-- Python attribute access `x.name`: a string has no such attribute. -/
def getattrName : PyV → Except PyErr String
  | PyV.pyStr _ => Except.error PyErr.attributeError
  | PyV.pyGroup g => Except.ok g.name

/-- The comprehension
`[group.name for group in self.get_affinity_groups(vm.cluster) if vm.name in [vm.name for vm in group.vms]]`:
the iterable is the dictionary, so iteration yields its keys; for each key
the filter evaluates `group.vms` first, then the kept element `group.name`. -/
def vmAffinityGroupsAux (vmName : String) (acc : List String) :
    List PyV → Except PyErr (List String)
  | [] => Except.ok acc
  | g :: rest =>
    match getattrVms g with
    | Except.error e => Except.error e
    | Except.ok members =>
      if vmName ∈ members then
        match getattrName g with
        | Except.error e => Except.error e
        | Except.ok n => vmAffinityGroupsAux vmName (acc ++ [n]) rest
      else vmAffinityGroupsAux vmName acc rest

def vmAffinityGroups (vmName : String) (gs : List AffinityGroupObj) :
    Except PyErr (List String) :=
  vmAffinityGroupsAux vmName [] ((get_affinity_groups gs).map (fun p => PyV.pyStr p.1))

/-- Modelled from the spec: the names of those affinity groups of the VM's
cluster whose member list contains the VM's name. -/
def vmAffinityGroupsSpec (vmName : String) (gs : List AffinityGroupObj) : List String :=
  (gs.filter (fun g => decide (vmName ∈ g.vms))).map (fun g => g.name)

/-! ## Concrete sample data for counterexamples and witnesses -/

/-- A data center. -/
def dcA : ProjDataCenter := { name := "dc1" }

/-- A cluster whose free-text name contains a space. -/
def clusterA : ProjCluster := { name := "my cluster", data_center := dcA }

/-- A host whose address differs from its id. -/
def hostA : HostVal :=
  { id := some ("hid1"), name := "h1", address := some ("10.0.0.5"),
    cluster := clusterA, tags := [] }

/-- The IP list of the sample device. -/
def ipListA : List String := ["10.0.0.9"]

/-- A reported device with one IP address. -/
def devIp : ReportedDevice := { name := "eth0", mac := none, ips := ipListA }

/-- A reported device with a MAC but no IP addresses. -/
def devNoIp : ReportedDevice :=
  { name := "eth1", mac := some ("aa:bb:cc:dd:ee:ff"), ips := [] }

/-- A VM with no nics. -/
def vmNoNics : VmVal :=
  { name := "vm0", host := none, tags := [], nics := get_vm_nics [], cluster := clusterA }

/-- A VM whose one nic has an IP address. -/
def vmGood : VmVal :=
  { name := "vmg", host := none, tags := [], nics := get_vm_nics [devIp], cluster := clusterA }

/-- A VM whose one nic reports a MAC but no IPs, so its nic dictionary lacks
the `ip_addresses` key. -/
def vmBad : VmVal :=
  { name := "vmx", host := none, tags := [], nics := get_vm_nics [devNoIp], cluster := clusterA }

/-- The default invocation: `--list` implied, no `--host`, no `--pretty`. -/
def argsListNoPretty : Args := { list := true, host := none, pretty := false }

/-- An invocation asking for a host name that no entity carries. -/
def argsAbsent : Args := { list := true, host := some ("ghost"), pretty := false }

/-- The VM name the sample affinity group contains. -/
def vmNameA : String := "vm1"

/-- An affinity group whose member list holds the sample VM name. -/
def agA : AffinityGroupObj := { id := "ag1", name := "grp1", vms := [vmNameA] }

/-! ## Claims -/

/-- C1 fails on the code: for a host whose cluster is named with a space,
`build_inventory` keys the cluster group by the raw name — the sanitizer,
which would have altered the fragment (third conjunct), is never applied to
any group-name fragment, and the group keyed by the sanitized fragment does
not exist (second conjunct). -/
theorem group_fragments_not_sanitized :
    Except.map (fun inv => dictGet inv.groups (groupCluster clusterA.name))
        (build_inventory [hostA] []) = Except.ok (some [hostA.name]) ∧
    Except.map
        (fun inv => dictGet inv.groups (groupCluster (String.mk (to_safe false clusterA.name.toList))))
        (build_inventory [hostA] []) = Except.ok none ∧
    to_safe false clusterA.name.toList ≠ clusterA.name.toList := by
  refine ⟨rfl, rfl, by decide⟩

/-- C2 fails on the code: with `--pretty` absent the run still renders
sorted-key, indented JSON, because both call sites of `json_format_dict`
pass the literal `True`; honoring the flag would have produced compact
output, as the last two conjuncts show. -/
theorem output_pretty_despite_flag_false :
    Except.map (fun r => (r.sort_keys, r.indent)) (runMain argsListNoPretty [hostA] []).2 =
      Except.ok (true, some 2) ∧
    (json_format_dict (PrintData.full emptyInventory) argsListNoPretty.pretty).sort_keys = false ∧
    (json_format_dict (PrintData.full emptyInventory) argsListNoPretty.pretty).indent = none := by
  refine ⟨rfl, rfl, rfl⟩

/-- C5 fails on the code: with one affinity group in the VM's cluster the
comprehension raises `AttributeError` — it iterates the id-keyed dictionary
returned by `get_affinity_groups`, so its loop variable is an id string —
while the cross-reference the claim describes would have produced the
group's name. -/
theorem affinity_comprehension_attribute_error :
    vmAffinityGroups vmNameA [agA] = Except.error PyErr.attributeError ∧
    vmAffinityGroupsSpec vmNameA [agA] = [agA.name] := by
  refine ⟨rfl, rfl⟩

/-- C6: for every host processed by the host loop, the emitted hostvars
entry carries `ansible_host` equal to the host's address exactly when the
address differs from the id, and carries no `ansible_host` exactly when
they coincide. -/
theorem host_entry_ansible_host (inv : Inventory) (v : HostVal) :
    ∃ ah, dictGet (processHost inv v).hostvars v.name = some (Entry.hostEntry v ah) ∧
      (ah = some v.address ↔ v.address ≠ v.id) ∧
      (ah = none ↔ v.address = v.id) := by
  refine ⟨if v.address = v.id then none else some v.address, ?_, ?_, ?_⟩
  · simp [processHost, dictGet_dictSet_self]
  · by_cases h : v.address = v.id <;> simp [h]
  · by_cases h : v.address = v.id <;> simp [h]

/-- C7: a run invoked with `--host NAME` for a NAME absent from
`_meta.hostvars` fails with the lookup `KeyError`, and the `print` step
never executes, so no JSON output is produced. -/
theorem host_mode_absent_name_fails (args : Args) (hosts : List HostVal)
    (vms : List VmVal) (h : String)
    (hh : args.host = some h) (hne : h.isEmpty = false)
    (habs : Except.map (fun inv => dictGet inv.hostvars h) (build_inventory hosts vms) =
      Except.ok none) :
    (runMain args hosts vms).2 = Except.error PyErr.keyError ∧
      Event.evPrint ∉ (runMain args hosts vms).1 := by
  cases hb : build_inventory hosts vms with
  | error e =>
    rw [hb] at habs
    exact absurd habs (by simp [Except.map])
  | ok inv =>
    rw [hb] at habs
    have hl : dictGet inv.hostvars h = none := by
      simpa [Except.map] using habs
    have hsel : selectOutput args inv = Except.error PyErr.keyError := by
      simp [selectOutput, hh, hne, hl]
    have hrun : runMain args hosts vms =
        ([Event.evConnect, Event.evBuild], Except.error PyErr.keyError) := by
      simp [runMain, hb, hsel]
    rw [hrun]
    exact ⟨rfl, by decide⟩

/-- C7 witness: asking for the absent name `ghost` against an inventory of
one host fails with `KeyError` and prints nothing. -/
theorem host_mode_absent_name_fails_witness :
    (runMain argsAbsent [hostA] []).2 = Except.error PyErr.keyError ∧
      Event.evPrint ∉ (runMain argsAbsent [hostA] []).1 :=
  host_mode_absent_name_fails argsAbsent [hostA] [] ("ghost") rfl rfl rfl

/-- C8: when the config file has no `format` section the settings carry no
`format` key, and any runtime invocation of the sanitizer — the first one
included — raises the missing-key error instead of applying a default. -/
theorem missing_format_section_fails (c : IniConfig) (w : List Char)
    (h : c.has_format_section = false) :
    (read_settings c).format = none ∧
      to_safe_run (read_settings c) w = Except.error PyErr.keyError := by
  have hf : (read_settings c).format = none := by simp [read_settings, h]
  exact ⟨hf, by simp [to_safe_run, hf]⟩

/-- The configuration of a file with only an `ovirt` section. -/
def iniNoFormat : IniConfig :=
  { ovirt_url := none, ovirt_username := none, ovirt_password := none,
    ovirt_ca_file := none, has_format_section := false, replace_dash_in_groups := false }

/-- C8 witness: the concrete section-less configuration yields settings
without a `format` key, on which the sanitizer raises. -/
theorem missing_format_section_fails_witness :
    (read_settings iniNoFormat).format = none ∧
      to_safe_run (read_settings iniNoFormat) ['a'] = Except.error PyErr.keyError :=
  missing_format_section_fails iniNoFormat ['a'] rfl

/-- C9 counterexample: the claim's error clause fails on the code — on a VM
whose only nic lacks the `ip_addresses` key, inventory building raises, and
because `__init__` has no cleanup handler the session is never closed
before the process terminates: `disconnect` is absent from the trace. -/
theorem error_during_build_skips_disconnect :
    isOkE (build_inventory [] [vmBad]) = false ∧
      Event.evDisconnect ∉ (runMain argsListNoPretty [] [vmBad]).1 := by
  refine ⟨rfl, by decide⟩

/-- C9 amended: in both output modes, on a run where inventory building and
output selection succeed, the session is closed exactly once and before
output is printed; an error raised during inventory building propagates
with the session never closed by the program (closing is left to process
exit). -/
theorem disconnect_exactly_once_on_success (args : Args) (hosts : List HostVal)
    (vms : List VmVal) :
    (isOkE (runMain args hosts vms).2 = true →
      (runMain args hosts vms).1 =
        [Event.evConnect, Event.evBuild, Event.evDisconnect, Event.evPrint]) ∧
    (isOkE (build_inventory hosts vms) = false →
      Event.evDisconnect ∉ (runMain args hosts vms).1 ∧
        Event.evPrint ∉ (runMain args hosts vms).1) := by
  cases hb : build_inventory hosts vms with
  | error e =>
    have hrun : runMain args hosts vms = ([Event.evConnect], Except.error e) := by
      simp [runMain, hb]
    rw [hrun]
    refine ⟨fun hok => absurd hok (by simp [isOkE]), fun _ => ⟨by simp, by simp⟩⟩
  | ok inv =>
    cases hs : selectOutput args inv with
    | error e2 =>
      have hrun : runMain args hosts vms =
          ([Event.evConnect, Event.evBuild], Except.error e2) := by
        simp [runMain, hb, hs]
      rw [hrun]
      refine ⟨fun hok => absurd hok (by simp [isOkE]),
        fun hko => absurd hko (by simp [isOkE])⟩
    | ok d =>
      have hrun : runMain args hosts vms =
          ([Event.evConnect, Event.evBuild, Event.evDisconnect, Event.evPrint],
            Except.ok d) := by
        simp [runMain, hb, hs]
      rw [hrun]
      refine ⟨fun _ => rfl, fun hko => absurd hko (by simp [isOkE])⟩

/-- C9 amended, witness: a successful one-host run closes the session
exactly once before printing, and a run whose build raises never reaches
`disconnect`. -/
theorem disconnect_exactly_once_witness :
    (runMain argsListNoPretty [hostA] []).1 =
      [Event.evConnect, Event.evBuild, Event.evDisconnect, Event.evPrint] ∧
      Event.evDisconnect ∉ (runMain argsListNoPretty [] [vmBad]).1 :=
  ⟨(disconnect_exactly_once_on_success argsListNoPretty [hostA] []).1 rfl,
    ((disconnect_exactly_once_on_success argsListNoPretty [] [vmBad]).2 rfl).1⟩

/-! ## Claim C10: the VM connection hint -/

theorem foldl_dictSet_mem (devs : List ReportedDevice) (acc : List (String × Nic))
    (p : String × Nic)
    (hp : p ∈ devs.foldl (fun a d => dictSet a d.name (deviceToNic d)) acc) :
    p ∈ acc ∨ ∃ d ∈ devs, p = (d.name, deviceToNic d) := by
  induction devs generalizing acc with
  | nil => exact Or.inl hp
  | cons d ds ih =>
    rcases ih (dictSet acc d.name (deviceToNic d)) (by simpa using hp) with h | h
    · rcases mem_dictSet acc d.name (deviceToNic d) p h with h2 | h2
      · exact Or.inl h2
      · exact Or.inr ⟨d, by simp, h2⟩
    · rcases h with ⟨d2, hd2, hpd⟩
      exact Or.inr ⟨d2, by simp [hd2], hpd⟩

/-- A nic dictionary built by `get_vms` never holds an `ip_addresses` key
with an empty list: the key is set only when `device.ips` is truthy. -/
theorem get_vm_nics_ip_ne_some_nil (devs : List ReportedDevice) :
    ∀ p ∈ get_vm_nics devs, p.2.ip_addresses ≠ some [] := by
  intro p hp
  rcases foldl_dictSet_mem devs [] p hp with h | ⟨d, _, hpd⟩
  · cases h
  · subst hpd
    cases hips : d.ips with
    | nil => simp [deviceToNic, hips]
    | cons a t => simp [deviceToNic, hips]

theorem mapExcept_nicFirstIp_ok (l : List Nic)
    (h : ∀ n ∈ l, n.ip_addresses ≠ none ∧ n.ip_addresses ≠ some []) :
    ∃ ips, mapExcept nicFirstIp l = Except.ok ips := by
  induction l with
  | nil => exact ⟨[], rfl⟩
  | cons n rest ih =>
    obtain ⟨h1, h2⟩ := h n (by simp)
    obtain ⟨ip, hip⟩ : ∃ ip, nicFirstIp n = Except.ok ip := by
      cases hn : n.ip_addresses with
      | none => exact absurd hn h1
      | some l2 =>
        cases l2 with
        | nil => exact absurd hn h2
        | cons a t => exact ⟨a, by simp [nicFirstIp, hn]⟩
    obtain ⟨ips, hips⟩ := ih (fun m hm => h m (by simp [hm]))
    exact ⟨ip :: ips, by simp [mapExcept, hip, hips]⟩

theorem mapExcept_nicFirstIp_keyError (l : List Nic)
    (hno : ∀ n ∈ l, n.ip_addresses ≠ some [])
    (hex : ∃ n ∈ l, n.ip_addresses = none) :
    mapExcept nicFirstIp l = Except.error PyErr.keyError := by
  induction l with
  | nil =>
    rcases hex with ⟨n, hn, _⟩
    cases hn
  | cons n rest ih =>
    cases hn : n.ip_addresses with
    | none => simp [mapExcept, nicFirstIp, hn]
    | some l2 =>
      have hl2 : l2 ≠ [] := by
        intro h
        exact hno n (by simp) (by simp [hn, h])
      cases l2 with
      | nil => exact absurd rfl hl2
      | cons a t =>
        have hex2 : ∃ m ∈ rest, m.ip_addresses = none := by
          rcases hex with ⟨m, hm, hmn⟩
          rcases List.mem_cons.mp hm with rfl | hm2
          · rw [hn] at hmn
            cases hmn
          · exact ⟨m, hm2, hmn⟩
        have hrec := ih (fun m hm => hno m (by simp [hm])) hex2
        simp [mapExcept, nicFirstIp, hn, hrec]

/-- When the first nic holds the list `ip :: tl` and every later nic has a
usable `ip_addresses` entry, the comprehension-and-index expression yields
the first IP of the first nic. -/
theorem vmAnsibleHost_first (p : String × Nic) (rest : List (String × Nic))
    (ip : String) (tl : List String)
    (hp : p.2.ip_addresses = some (ip :: tl))
    (hrest : ∀ q ∈ rest, q.2.ip_addresses ≠ none ∧ q.2.ip_addresses ≠ some []) :
    vmAnsibleHost (p :: rest) = Except.ok (some ip) := by
  obtain ⟨ips, hips⟩ := mapExcept_nicFirstIp_ok (rest.map Prod.snd) (by
    intro n hn
    rcases List.mem_map.mp hn with ⟨q, hq, rfl⟩
    exact hrest q hq)
  have hfp : nicFirstIp p.2 = Except.ok ip := by simp [nicFirstIp, hp]
  simp [vmAnsibleHost, mapExcept, hfp, hips]

/-- After a successful VM iteration the stored hostvars entry is the VM's
`ovirt` bag with the computed `ansible_host`. -/
theorem processVmOk_hostvars_lookup (inv : Inventory) (v : VmVal) (ah : Option String) :
    dictGet (processVmOk inv v ah).hostvars v.name = some (Entry.vmEntry v ah) := by
  cases hvh : v.host with
  | none => simp [processVmOk, hvh, dictGet_dictSet_self]
  | some hn =>
    by_cases hh : hn.isEmpty <;> simp [processVmOk, hvh, hh, dictGet_dictSet_self]

/-- C10: for a VM whose `nics` dictionary was built from its reported
devices, the VM loop (i) emits no `ansible_host` when the dictionary is
empty, (ii) sets `ansible_host` to the first IP address of the first nic
when every nic has an `ip_addresses` key, and (iii) raises `KeyError` —
aborting the run instead of omitting the field — when any nic lacks the
key. -/
theorem vm_ansible_host_cases (inv : Inventory) (v : VmVal) (devs : List ReportedDevice)
    (hv : v.nics = get_vm_nics devs) :
    (v.nics = [] →
      ∃ inv2, processVm inv v = Except.ok inv2 ∧
        dictGet inv2.hostvars v.name = some (Entry.vmEntry v none)) ∧
    (∀ p rest ips, v.nics = p :: rest → p.2.ip_addresses = some ips →
      (∀ q ∈ v.nics, q.2.ip_addresses ≠ none) →
      ∃ ip tl inv2, ips = ip :: tl ∧ processVm inv v = Except.ok inv2 ∧
        dictGet inv2.hostvars v.name = some (Entry.vmEntry v (some ip))) ∧
    ((∃ q ∈ v.nics, q.2.ip_addresses = none) →
      processVm inv v = Except.error PyErr.keyError) := by
  have hnoempty : ∀ q ∈ v.nics, q.2.ip_addresses ≠ some [] := by
    rw [hv]
    exact get_vm_nics_ip_ne_some_nil devs
  refine ⟨?_, ?_, ?_⟩
  · intro hnil
    refine ⟨processVmOk inv v none, ?_, processVmOk_hostvars_lookup inv v none⟩
    simp [processVm, vmAnsibleHost, hnil]
  · intro p rest ips hcons hp hall
    obtain ⟨ip, tl, hips⟩ : ∃ ip tl, ips = ip :: tl := by
      cases ips with
      | nil =>
        exact absurd hp (hnoempty p (by simp [hcons]))
      | cons ip tl => exact ⟨ip, tl, rfl⟩
    subst hips
    have hfirst : vmAnsibleHost v.nics = Except.ok (some ip) := by
      rw [hcons]
      refine vmAnsibleHost_first p rest ip tl hp ?_
      intro q hq
      have hqm : q ∈ v.nics := by simp [hcons, hq]
      exact ⟨hall q hqm, hnoempty q hqm⟩
    refine ⟨ip, tl, processVmOk inv v (some ip), rfl, ?_,
      processVmOk_hostvars_lookup inv v (some ip)⟩
    simp [processVm, hfirst]
  · intro hex
    have herr : vmAnsibleHost v.nics = Except.error PyErr.keyError := by
      cases hn : v.nics with
      | nil =>
        rcases hex with ⟨q, hq, _⟩
        rw [hn] at hq
        cases hq
      | cons p rest =>
        have hmap : mapExcept nicFirstIp (p.2 :: rest.map Prod.snd) =
            Except.error PyErr.keyError := by
          refine mapExcept_nicFirstIp_keyError _ ?_ ?_
          · intro n hnm
            rcases List.mem_cons.mp hnm with rfl | hnm2
            · exact hnoempty p (by simp [hn])
            · rcases List.mem_map.mp hnm2 with ⟨q, hq, rfl⟩
              exact hnoempty q (by simp [hn, hq])
          · rcases hex with ⟨q, hq, hqn⟩
            rw [hn] at hq
            rcases List.mem_cons.mp hq with rfl | hq2
            · exact ⟨q.2, by simp, hqn⟩
            · exact ⟨q.2, List.mem_cons_of_mem _ (List.mem_map.mpr ⟨q, hq2, rfl⟩), hqn⟩
        simp [vmAnsibleHost, hmap]
    simp [processVm, herr]

/-- C10 witness: the three cases at concrete VMs — no nics, one nic with an
IP, one nic lacking the `ip_addresses` key. -/
theorem vm_ansible_host_cases_witness :
    (∃ inv2, processVm emptyInventory vmNoNics = Except.ok inv2 ∧
        dictGet inv2.hostvars vmNoNics.name = some (Entry.vmEntry vmNoNics none)) ∧
    (∃ ip tl inv2, ipListA = ip :: tl ∧
        processVm emptyInventory vmGood = Except.ok inv2 ∧
        dictGet inv2.hostvars vmGood.name = some (Entry.vmEntry vmGood (some ip))) ∧
    processVm emptyInventory vmBad = Except.error PyErr.keyError :=
  ⟨(vm_ansible_host_cases emptyInventory vmNoNics [] rfl).1 rfl,
    (vm_ansible_host_cases emptyInventory vmGood [devIp] rfl).2.1
      (devIp.name, deviceToNic devIp) [] ipListA rfl rfl (by decide),
    (vm_ansible_host_cases emptyInventory vmBad [devNoIp] rfl).2.2
      ⟨(devNoIp.name, deviceToNic devNoIp), by decide, rfl⟩⟩

end Ovirt
